import Mathlib

/-!
Verification of the Neko-Oracle-RWA normalization / aggregation / scheduling core.

The TypeScript sources are shallowly embedded: JS `number` arithmetic on prices,
weights and statistics is modelled by exact rationals (`ℚ`), epoch-millisecond
timestamps by `ℤ`, fallible operations by `Except`, and the `Map` objects by
association lists.  Each definition mirrors one function of the repository and
keeps its name where Lean allows it.
-/

/-- The quote record consumed by the aggregator strategies
(`NormalizedPrice` in `interfaces/normalized-price.interface.ts`, as used by
`aggregation.service.ts` and the aggregators: numeric `timestamp`, optional
per-quote `weight`). -/
structure NormalizedPrice where
  symbol : String
  price : ℚ
  timestamp : ℤ
  source : String
  weight : Option ℚ := none
deriving Repr, DecidableEq

/-- Error outcomes of the aggregation pipeline; each constructor corresponds to
one `throw new Error(...)` site of the aggregator sources. -/
inductive AggError
  | emptyInput                  -- 'Cannot aggregate empty price array'
  | zeroTotalWeight             -- 'Total weight cannot be zero'
  | symbolEmpty                 -- 'Symbol cannot be empty'
  | pricesEmpty                 -- 'Prices array cannot be empty'
  | minSourcesTooSmall          -- 'Minimum sources must be at least 1'
  | insufficientSources         -- 'Insufficient sources for ...'
  | insufficientRecentSources   -- 'Insufficient recent sources for ...'
  | symbolMismatch              -- 'All prices must be for symbol ...'
  | invalidPriceValues          -- 'Found ... invalid price values'
  | invalidTrimPercentage       -- 'Trim percentage must be between 0 and 0.5'
deriving Repr, DecidableEq

instance {ε α : Type} [DecidableEq ε] [DecidableEq α] : DecidableEq (Except ε α) :=
  fun x y =>
    match x, y with
    | .error a, .error b =>
        if h : a = b then .isTrue (by rw [h])
        else .isFalse (fun hc => h (Except.error.inj hc))
    | .ok a, .ok b =>
        if h : a = b then .isTrue (by rw [h])
        else .isFalse (fun hc => h (Except.ok.inj hc))
    | .error _, .ok _ => .isFalse (fun hc => Except.noConfusion hc)
    | .ok _, .error _ => .isFalse (fun hc => Except.noConfusion hc)

/-- JS `String.prototype.trim`: drop leading and trailing whitespace
(written on the character list so that it evaluates inside the kernel). -/
def jsTrim (s : String) : String :=
  ⟨(((s.data.dropWhile Char.isWhitespace).reverse).dropWhile Char.isWhitespace).reverse⟩

/-- JS `String.prototype.toUpperCase` (on the ASCII symbols at hand). -/
def jsToUpper (s : String) : String := ⟨s.data.map Char.toUpper⟩

/-- JS `String.prototype.endsWith`. -/
def strEndsWith (s suffix : String) : Bool := suffix.data.isSuffixOf s.data

/-- Drop the last `n` characters of a string (`slice(0, -n)`). -/
def strDropRight (s : String) (n : ℕ) : String := ⟨s.data.take (s.data.length - n)⟩

/-- `weights?.get(key)` on the prepared weights map (modelled as an
association list). -/
def lookupWeight (weights : List (String × ℚ)) (key : String) : Option ℚ :=
  (weights.find? (fun kv => kv.1 == key)).map Prod.snd

/-- `priceData.weight ?? weights?.get(priceData.source) ?? 1`
(`weighted-average.aggregator.ts`, line 39; identical line in the trimmed-mean
aggregator's `calculateWeightedAverage`). -/
def effectiveWeight (weights : List (String × ℚ)) (p : NormalizedPrice) : ℚ :=
  p.weight.getD ((lookupWeight weights p.source).getD 1)

/-- The running `weightedSum` accumulated by the aggregation loops. -/
def weightedSum (weights : List (String × ℚ)) (prices : List NormalizedPrice) : ℚ :=
  (prices.map (fun p => p.price * effectiveWeight weights p)).sum

/-- The running `totalWeight` accumulated by the aggregation loops. -/
def totalWeight (weights : List (String × ℚ)) (prices : List NormalizedPrice) : ℚ :=
  (prices.map (fun p => effectiveWeight weights p)).sum

/-- `WeightedAverageAggregator.aggregate`
(`weighted-average.aggregator.ts`, lines 29-50): empty-input check, one loop
accumulating `weightedSum` and `totalWeight`, the `totalWeight === 0` check,
then the quotient. -/
def weightedAverageAggregate (prices : List NormalizedPrice)
    (weights : List (String × ℚ)) : Except AggError ℚ :=
  if prices = [] then .error .emptyInput
  else if totalWeight weights prices = 0 then .error .zeroTotalWeight
  else .ok (weightedSum weights prices / totalWeight weights prices)

/-- `TrimmedMeanAggregator.calculateWeightedAverage` (private helper; same loop
as the weighted-average aggregator but without the empty-input check). -/
def calculateWeightedAverage (prices : List NormalizedPrice)
    (weights : List (String × ℚ)) : Except AggError ℚ :=
  if totalWeight weights prices = 0 then .error .zeroTotalWeight
  else .ok (weightedSum weights prices / totalWeight weights prices)

/-- The ascending in-place numeric sort `(a, b) => a.price - b.price` used on
the spread copy in `TrimmedMeanAggregator.aggregate`; JS `Array.prototype.sort`
with a consistent comparator is a stable ascending sort. -/
def sortByPrice (prices : List NormalizedPrice) : List NormalizedPrice :=
  prices.insertionSort (fun a b => a.price ≤ b.price)

/-- `TrimmedMeanAggregator.aggregate` (trimmed-mean aggregator source, lines
231-253): empty check, fall back to the plain weighted average below three
elements, otherwise sort a copy ascending by price, drop
`trimCount = Math.floor(length * trimPercentage)` elements from each end via
`slice(trimCount, length - trimCount)`, and weighted-average the remainder.
The constructor's range check on `trimPercentage` is modelled separately
(`trimPercentageValid`). -/
def trimmedMeanAggregate (trimPercentage : ℚ) (prices : List NormalizedPrice)
    (weights : List (String × ℚ)) : Except AggError ℚ :=
  if prices = [] then .error .emptyInput
  else if prices.length < 3 then calculateWeightedAverage prices weights
  else
    let sortedPrices := sortByPrice prices
    let trimCount := (Int.floor ((sortedPrices.length : ℚ) * trimPercentage)).toNat
    let trimmedPrices := (sortedPrices.take (sortedPrices.length - trimCount)).drop trimCount
    calculateWeightedAverage trimmedPrices weights

/-- The `TrimmedMeanAggregator` constructor accepts
`0 ≤ trimPercentage < 0.5` and throws otherwise. -/
def trimPercentageValid (trimPercentage : ℚ) : Bool :=
  !(trimPercentage < 0 || 1/2 ≤ trimPercentage)

/-- `MedianAggregator.aggregate` (`median.aggregator.ts`, lines 28-46):
empty check, extract-and-sort the price list (the sort acts on the fresh array
built by `.map`), then middle element (odd length) or mean of the two central
elements (even length). -/
def medianAggregate (prices : List NormalizedPrice) : Except AggError ℚ :=
  if prices = [] then .error .emptyInput
  else
    let sortedPrices := (prices.map (fun p => p.price)).insertionSort (· ≤ ·)
    let middle := sortedPrices.length / 2
    if sortedPrices.length % 2 = 1 then .ok (sortedPrices.getD middle 0)
    else .ok ((sortedPrices.getD (middle - 1) 0 + sortedPrices.getD middle 0) / 2)

/-- The `SOURCE_WEIGHTS` table of `config/source-weights.config.ts`. -/
def SOURCE_WEIGHTS : List (String × ℚ) :=
  [("Bloomberg", 2), ("Reuters", 2), ("AlphaVantage", 3/2),
   ("YahooFinance", 6/5), ("Finnhub", 6/5), ("IEX Cloud", 6/5),
   ("Polygon", 1), ("Twelve Data", 1), ("MarketStack", 1),
   ("WorldTradingData", 4/5), ("CryptoCompare", 4/5), ("default", 1)]

/-- `getSourceWeight(source)`: `SOURCE_WEIGHTS[source] ?? SOURCE_WEIGHTS['default']`. -/
def getSourceWeight (source : String) : ℚ :=
  (lookupWeight SOURCE_WEIGHTS source).getD
    ((lookupWeight SOURCE_WEIGHTS "default").getD 0)

/-- `AggregationService.prepareWeights` (`aggregation.service.ts`, lines
231-247): for each distinct source among the quotes, the custom weight if
present else the configured source weight. -/
def prepareWeights (prices : List NormalizedPrice)
    (customWeights : Option (List (String × ℚ))) : List (String × ℚ) :=
  ((prices.map (fun p => p.source)).eraseDups).map
    (fun s => (s, ((customWeights.bind (fun m => lookupWeight m s)).getD (getSourceWeight s))))

/-- The three aggregation methods of `AggregationOptions.method`. -/
inductive Method
  | weightedAverage
  | median
  | trimmedMean
deriving Repr, DecidableEq

/-- `AggregationOptions` (`aggregation.service.ts`, lines 15-30) with the
defaults destructured at the top of `aggregate`. -/
structure AggregationOptions where
  minSources : ℕ := 3
  timeWindowMs : ℤ := 30000
  method : Method := Method.weightedAverage
  customWeights : Option (List (String × ℚ)) := none
  trimPercentage : ℚ := 1/5
deriving Repr

/-- The statistics record of `AggregationService.calculateMetrics`.
`standardDeviation` is `Math.sqrt variance`, irrational in general, so the
record carries the (exact, rational) `variance` and `spread`; the confidence
formula over a given standard deviation is modelled by `calculateConfidence`. -/
structure Metrics where
  variance : ℚ
  spread : ℚ
deriving Repr, DecidableEq

/-- `AggregationService.calculateMetrics` (`aggregation.service.ts`, lines
252-277): mean, population variance, and
`spread = ((maxPrice - minPrice) / mean) * 100` over the price values.
`Math.min(...)/Math.max(...)` over the (always non-empty) value list are the
list minimum/maximum. -/
def calculateMetrics (prices : List NormalizedPrice) : Metrics :=
  let priceValues := prices.map (fun p => p.price)
  let mean := priceValues.sum / (priceValues.length : ℚ)
  let squaredDiffs := priceValues.map (fun p => (p - mean) ^ 2)
  let variance := squaredDiffs.sum / (squaredDiffs.length : ℚ)
  let minPrice := (priceValues.min?).getD 0
  let maxPrice := (priceValues.max?).getD 0
  { variance := variance, spread := ((maxPrice - minPrice) / mean) * 100 }

/-- `AggregationService.calculateConfidence` (`aggregation.service.ts`, lines
287-307), as a pure function of the standard deviation, the spread percentage
and the source count. -/
def calculateConfidence (standardDeviation spread : ℚ) (sourceCount : ℕ) : ℚ :=
  let sourceScore := min 40 (10 + (sourceCount : ℚ) * 3)
  let spreadScore := max 0 (30 - spread * 3)
  let stdDevScore := max 0 (30 - standardDeviation * (3/10))
  let totalScore := sourceScore + spreadScore + stdDevScore
  max 0 (min 100 totalScore)

/-- The confidence formula as the spec states it (§4.4 of the spec):
`clamp(min(40, 10 + 3·n) + max(0, 30 − 3·s) + max(0, 30 − 0.3·d), 0, 100)`,
written for comparison against `calculateConfidence`. -/
def confidenceSpecFormula (sourceCount : ℕ) (spreadPercent stdDev : ℚ) : ℚ :=
  max 0 (min 100
    (min 40 (10 + 3 * (sourceCount : ℚ))
      + max 0 (30 - 3 * spreadPercent)
      + max 0 (30 - (3/10) * stdDev)))

/-- `AggregationService.validateInputs` (`aggregation.service.ts`, lines
190-226), in source order: empty symbol, empty prices, `minSources < 1`,
`prices.length < minSources`, symbol mismatch, invalid price values.  Prices
are exact rationals, hence always finite; `!isFinite(p.price) || p.price <= 0`
reduces to `p.price ≤ 0`. -/
def validateInputs (symbol : String) (prices : List NormalizedPrice)
    (minSources : ℕ) : Except AggError Unit :=
  if jsTrim symbol = "" then .error .symbolEmpty
  else if prices = [] then .error .pricesEmpty
  else if minSources < 1 then .error .minSourcesTooSmall
  else if prices.length < minSources then .error .insufficientSources
  else if (prices.filter (fun p => p.symbol ≠ symbol)).length ≠ 0 then .error .symbolMismatch
  else if (prices.filter (fun p => p.price ≤ 0)).length ≠ 0 then .error .invalidPriceValues
  else .ok ()

/-- Strategy dispatch of `AggregationService.aggregate` (lines 94-110): the
aggregator registry keyed by method, with the fresh `TrimmedMeanAggregator`
constructed for a custom trim percentage (whose constructor range check is the
`trimPercentageValid` test). -/
def dispatchAggregator (method : Method) (trimPercentage : ℚ)
    (prices : List NormalizedPrice) (weights : List (String × ℚ)) :
    Except AggError ℚ :=
  match method with
  | .weightedAverage => weightedAverageAggregate prices weights
  | .median => medianAggregate prices
  | .trimmedMean =>
      if trimPercentageValid trimPercentage then
        trimmedMeanAggregate trimPercentage prices weights
      else .error .invalidTrimPercentage

/-- The consensus record assembled by `AggregationService.aggregate` (lines
126-139).  The real-valued `confidence` and `metrics.standardDeviation`
(square root of the variance) are not rational; the record carries the exact
fields, and the confidence formula is verified separately on
`calculateConfidence`. -/
structure AggregatedPrice where
  symbol : String
  price : ℚ
  method : Method
  metrics : Metrics
  sourceCount : ℕ
  startTimestamp : ℤ
  endTimestamp : ℤ
  sources : List String
deriving Repr, DecidableEq

/-- `AggregationService.aggregate` (`aggregation.service.ts`, lines 63-158)
with the ambient clock `Date.now()` passed explicitly: validate, filter to the
window `timestamp ≥ now − timeWindowMs`, fail when fewer than `minSources`
survive, prepare weights, run the strategy, compute metrics and compose the
result record. -/
def aggregateEngine (now : ℤ) (symbol : String) (prices : List NormalizedPrice)
    (options : AggregationOptions) : Except AggError AggregatedPrice :=
  match validateInputs symbol prices options.minSources with
  | .error e => .error e
  | .ok () =>
    let windowStart := now - options.timeWindowMs
    let recentPrices := prices.filter (fun p => windowStart ≤ p.timestamp)
    if recentPrices.length < options.minSources then .error .insufficientRecentSources
    else
      let weights := prepareWeights recentPrices options.customWeights
      match dispatchAggregator options.method options.trimPercentage recentPrices weights with
      | .error e => .error e
      | .ok consensusPrice =>
        let timestamps := recentPrices.map (fun p => p.timestamp)
        .ok { symbol := symbol
              price := consensusPrice
              method := options.method
              metrics := calculateMetrics recentPrices
              sourceCount := recentPrices.length
              startTimestamp := (timestamps.min?).getD 0
              endTimestamp := (timestamps.max?).getD 0
              sources := (recentPrices.map (fun p => p.source)).eraseDups }

/-- A JS value sitting in the `timestamp` field of a raw record: a numeric
epoch, the numeric `NaN`, or a non-number (missing / string / other). -/
inductive RawTimestamp
  | int (t : ℤ)
  | nan
  | nonNumber
deriving Repr, DecidableEq

/-- `RawPrice` (`@oracle-stocks/shared`), the normalizer input. The price is a
finite JS number (exact rational in the model); the timestamp field keeps its
untyped JS shape so the validation clauses can be stated. -/
structure RawPrice where
  symbol : String
  price : ℚ
  timestamp : RawTimestamp
  source : String
deriving Repr, DecidableEq

/-- Validation failures of `BaseNormalizer.validateRawPrice` and
`normalizeTimestamp`, one constructor per `throw new ValidationException` site. -/
inductive ValError
  | symbolRequired      -- 'Symbol is required and must be a string'
  | negativePrice       -- 'Price cannot be negative'
  | timestampRequired   -- 'Timestamp is required and must be a number'
  | sourceRequired      -- 'Source is required and must be a string'
  | invalidTimestamp    -- 'Invalid timestamp: ...'
deriving Repr, DecidableEq

/-- The timestamp clause of `validateRawPrice` (`base.normalizer.ts`, lines
131-136): `!rawPrice.timestamp || typeof rawPrice.timestamp !== 'number'`
rejects non-numbers, `NaN` (falsy) and `0` (falsy); every other numeric epoch
passes. -/
def timestampFieldOk : RawTimestamp → Bool
  | .int t => t != 0
  | .nan => false
  | .nonNumber => false

/-- `BaseNormalizer.validateRawPrice` (`base.normalizer.ts`, lines 102-143) in
source order.  In the model the symbol and source are always strings (empty
string is the falsy case) and the price is always a finite number, so the
type-of and finiteness clauses reduce away. -/
def validateRawPrice (raw : RawPrice) : Except ValError Unit :=
  if raw.symbol = "" then .error .symbolRequired
  else if raw.price < 0 then .error .negativePrice
  else if !timestampFieldOk raw.timestamp then .error .timestampRequired
  else if raw.source = "" then .error .sourceRequired
  else .ok ()

/-- `Math.round`: round half away from zero is `⌊x + 1/2⌋` for the
non-negative prices admitted by validation (JS rounds half toward +∞). -/
def jsRound (q : ℚ) : ℤ := Int.floor (q + 1/2)

/-- `BaseNormalizer.normalizePrice`: `Math.round(price * 10000) / 10000`. -/
def normalizePrice (price : ℚ) : ℚ := ((jsRound (price * 10000)) : ℚ) / 10000

/-- The extreme epoch representable by a JS `Date` (`8.64e15` ms); larger
magnitudes make `new Date(t).getTime()` return `NaN`. -/
def MAX_JS_DATE_MS : ℤ := 8640000000000000

/-- `BaseNormalizer.normalizeTimestamp` (`base.normalizer.ts`, lines 155-161):
`new Date(timestamp)` is invalid exactly when the magnitude exceeds the `Date`
range; otherwise the ISO-8601 UTC string denotes the same instant, represented
here by its epoch value. -/
def normalizeTimestamp (t : ℤ) : Except ValError ℤ :=
  if MAX_JS_DATE_MS < |t| then .error .invalidTimestamp else .ok t

/-- The canonical record assembled by `BaseNormalizer.normalize`
(`base.normalizer.ts`, lines 39-76).  `isoTimestamp` stands for the ISO-8601
string via the instant it denotes; the audit metadata (original symbol,
transformation strings, wall-clock `normalizedAt`) is not needed by any claim. -/
structure CanonicalQuote where
  symbol : String
  price : ℚ
  isoTimestamp : ℤ
  originalTimestamp : ℤ
  source : String
deriving Repr, DecidableEq

/-- `BaseNormalizer.normalize` (`base.normalizer.ts`, lines 39-76),
parameterized by the subclass's `normalizeSymbol` and canonical source tag:
validate, rewrite the symbol, round the price, convert the timestamp, and
assemble the canonical record. -/
def normalizeWith (normSym : String → String) (canonicalSource : String)
    (raw : RawPrice) : Except ValError CanonicalQuote :=
  match validateRawPrice raw with
  | .error e => .error e
  | .ok () =>
    match raw.timestamp with
    | .int t =>
      match normalizeTimestamp t with
      | .error e => .error e
      | .ok iso =>
        .ok { symbol := normSym raw.symbol
              price := normalizePrice raw.price
              isoTimestamp := iso
              originalTimestamp := t
              source := canonicalSource }
    | _ => .error .timestampRequired   -- unreachable: validation already rejected

/-- `BaseNormalizer.cleanSymbol`: `symbol.trim().toUpperCase()`. -/
def cleanSymbol (symbol : String) : String := jsToUpper (jsTrim symbol)

/-- The Alpha Vantage exchange suffixes of the regex
`/\.(US|NYSE|NASDAQ|LSE|TSX|ASX|HK|LON)$/i` (`alpha-vantage.normalizer.ts`,
line 35).  On the upper-cased cleaned symbol the case-insensitive match is the
literal match; at most one alternative can match the string end (no suffix of
the list extends another across the dot), and the `$`-anchored `replace`
removes exactly that one trailing occurrence. -/
def AV_SUFFIXES : List String :=
  ["US", "NYSE", "NASDAQ", "LSE", "TSX", "ASX", "HK", "LON"]

/-- `normalized.replace(suffixPattern, '')` for the Alpha Vantage suffix
pattern: strip one trailing `.SUF` when present. -/
def stripAVSuffix (s : String) : String :=
  match AV_SUFFIXES.find? (fun suf => strEndsWith s ("." ++ suf)) with
  | some suf => strDropRight s (suf.data.length + 1)
  | none => s

/-- `AlphaVantageNormalizer.normalizeSymbol` (`alpha-vantage.normalizer.ts`,
lines 30-39): clean, then strip a trailing exchange suffix. -/
def alphaVantageNormalizeSymbol (symbol : String) : String :=
  stripAVSuffix (cleanSymbol symbol)

/-- `AlphaVantageNormalizer.normalize`: the base normalization with the
Alpha Vantage symbol rule and canonical source (`NormalizedSource.ALPHA_VANTAGE
= 'alpha_vantage'`). -/
def alphaVantageNormalize (raw : RawPrice) : Except ValError CanonicalQuote :=
  normalizeWith alphaVantageNormalizeSymbol "alpha_vantage" raw

/-- The Yahoo Finance exchange suffixes of the regex
`/\.(L|T|AX|HK|SI|KS|TW|NS|BO|TO|V|F|DE|PA|AS|BR|MC|MI|SW|CO|MX|SA|JK|KL)$/i`
(`YahooFinanceNormalizer.normalizeSymbol`).  As for Alpha Vantage, on the
cleaned upper-case symbol at most one alternative can match the string end (no
listed suffix extends another across the dot), and the `$`-anchored `replace`
removes exactly that one trailing occurrence. -/
def YF_SUFFIXES : List String :=
  ["L", "T", "AX", "HK", "SI", "KS", "TW", "NS", "BO", "TO", "V", "F", "DE",
   "PA", "AS", "BR", "MC", "MI", "SW", "CO", "MX", "SA", "JK", "KL"]

/-- `normalized.replace(suffixPattern, '')` for the Yahoo Finance suffix
pattern: strip one trailing `.SUF` when present. -/
def stripYFSuffix (s : String) : String :=
  match YF_SUFFIXES.find? (fun suf => strEndsWith s ("." ++ suf)) with
  | some suf => strDropRight s (suf.data.length + 1)
  | none => s

/-- `if (normalized.startsWith('^')) normalized = normalized.substring(1)`:
strip one leading index marker. -/
def stripLeadingCaret (s : String) : String :=
  match s.data with
  | c :: rest => if c = '^' then ⟨rest⟩ else s
  | [] => s

/-- `YahooFinanceNormalizer.normalizeSymbol`: clean, strip a trailing exchange
suffix, then strip a leading `^`. -/
def yahooFinanceNormalizeSymbol (symbol : String) : String :=
  stripLeadingCaret (stripYFSuffix (cleanSymbol symbol))

/-- `YahooFinanceNormalizer.normalize`: the base normalization with the Yahoo
Finance symbol rule and canonical source (`NormalizedSource.YAHOO_FINANCE
= 'yahoo_finance'`). -/
def yahooFinanceNormalize (raw : RawPrice) : Except ValError CanonicalQuote :=
  normalizeWith yahooFinanceNormalizeSymbol "yahoo_finance" raw

/-- State of `SchedulerService` (`scheduler.service.ts`): whether the interval
timer is installed (`intervalId !== null`), the `isRunning` flag, and the
number of `executeFetch` invocations currently in flight (each is `async` and
is not awaited by the timer callback). -/
structure SchedulerState where
  intervalSet : Bool
  isRunning : Bool
  inFlight : ℕ
deriving Repr, DecidableEq

/-- Events of a scheduler execution: the public `startScheduler` /
`stopScheduler` calls, an interval tick firing, and an in-flight
`executeFetch` resolving. -/
inductive SchedulerEvent
  | start
  | tick
  | fetchDone
  | stop
deriving Repr, DecidableEq

/-- One step of the scheduler, transliterated from `scheduler.service.ts`:

* `startScheduler` (lines 27-45): a no-op when `isRunning`; otherwise it calls
  `executeFetch()` immediately (one more cycle in flight), installs the
  interval and sets `isRunning`.
* a tick (lines 39-41): the interval callback invokes `this.executeFetch()`
  with no guard and without awaiting, so whenever the interval is installed a
  tick puts one more cycle in flight.
* completion of a fetch: one fewer cycle in flight.
* `stopScheduler` (lines 47-54): clears the interval and `isRunning` when the
  interval is installed (in-flight cycles are unaffected). -/
def schedulerStep (s : SchedulerState) : SchedulerEvent → SchedulerState
  | .start =>
      if s.isRunning then s
      else { intervalSet := true, isRunning := true, inFlight := s.inFlight + 1 }
  | .tick =>
      if s.intervalSet then { s with inFlight := s.inFlight + 1 } else s
  | .fetchDone => { s with inFlight := s.inFlight - 1 }
  | .stop =>
      if s.intervalSet then { s with intervalSet := false, isRunning := false } else s

/-- The scheduler before `onModuleInit`. -/
def schedulerInit : SchedulerState :=
  { intervalSet := false, isRunning := false, inFlight := 0 }

/-- Run a sequence of scheduler events from the initial state. -/
def schedulerRun (events : List SchedulerEvent) : SchedulerState :=
  events.foldl schedulerStep schedulerInit

/-- The single-flight property claimed of the scheduler: along every event
sequence at most one fetch cycle is in flight. -/
def schedulerSingleFlight : Prop :=
  ∀ events : List SchedulerEvent, (schedulerRun events).inFlight ≤ 1

/-- A JS array object on the heap: the aggregator sources only manipulate
arrays of quote records and arrays of numbers. -/
inductive JsArray
  | quotes (l : List NormalizedPrice)
  | nums (l : List ℚ)
deriving Repr, DecidableEq

/-- A heap of JS array objects addressed by allocation index, used to track
which array object an in-place `Array.prototype.sort` mutates. -/
structure JsHeap where
  arrays : ℕ → Option JsArray
  next : ℕ

/-- References at or beyond the allocation frontier are unallocated. -/
def JsHeap.WF (h : JsHeap) : Prop := ∀ i, h.next ≤ i → h.arrays i = none

/-- Allocate a fresh array object (what `.map(...)` and `[...arr]` do). -/
def JsHeap.alloc (h : JsHeap) (a : JsArray) : JsHeap × ℕ :=
  ({ arrays := fun i => if i = h.next then some a else h.arrays i,
     next := h.next + 1 }, h.next)

/-- Overwrite the array object at a reference (what an in-place mutation of an
existing array does). -/
def JsHeap.writeAt (h : JsHeap) (r : ℕ) (a : JsArray) : JsHeap :=
  { h with arrays := fun i => if i = r then some a else h.arrays i }

/-- `Array.prototype.sort` on a numeric array: sorts the receiver in place. -/
def JsHeap.sortNumsAt (h : JsHeap) (r : ℕ) : JsHeap :=
  match h.arrays r with
  | some (JsArray.nums l) => h.writeAt r (JsArray.nums (l.insertionSort (· ≤ ·)))
  | _ => h

/-- `Array.prototype.sort` with comparator `(a, b) => a.price - b.price` on a
quote array: sorts the receiver in place. -/
def JsHeap.sortQuotesAt (h : JsHeap) (r : ℕ) : JsHeap :=
  match h.arrays r with
  | some (JsArray.quotes l) => h.writeAt r (JsArray.quotes (sortByPrice l))
  | _ => h

/-- `MedianAggregator.aggregate` with its array effects explicit: the caller's
array lives at reference `r`; `prices.map(p => p.price)` allocates a fresh
numeric array and `.sort((a, b) => a - b)` mutates that fresh array in place.
Returns the result together with the final heap. -/
def medianAggregateOnHeap (h : JsHeap) (r : ℕ) : Except AggError ℚ × JsHeap :=
  match h.arrays r with
  | some (JsArray.quotes prices) =>
    if prices = [] then (.error .emptyInput, h)
    else
      let (h1, rm) := h.alloc (JsArray.nums (prices.map (fun p => p.price)))
      let h2 := h1.sortNumsAt rm
      let sortedPrices := match h2.arrays rm with
        | some (JsArray.nums l) => l
        | _ => []
      let middle := sortedPrices.length / 2
      if sortedPrices.length % 2 = 1 then (.ok (sortedPrices.getD middle 0), h2)
      else (.ok ((sortedPrices.getD (middle - 1) 0 + sortedPrices.getD middle 0) / 2), h2)
  | _ => (.error .emptyInput, h)

/-- `TrimmedMeanAggregator.aggregate` with its array effects explicit: the
caller's array lives at reference `r`; `[...prices]` allocates a fresh copy
and `.sort((a, b) => a.price - b.price)` mutates that copy in place (`slice`
also allocates, leaving the sorted copy intact). -/
def trimmedMeanAggregateOnHeap (trimPercentage : ℚ) (h : JsHeap) (r : ℕ)
    (weights : List (String × ℚ)) : Except AggError ℚ × JsHeap :=
  match h.arrays r with
  | some (JsArray.quotes prices) =>
    if prices = [] then (.error .emptyInput, h)
    else if prices.length < 3 then (calculateWeightedAverage prices weights, h)
    else
      let (h1, rc) := h.alloc (JsArray.quotes prices)
      let h2 := h1.sortQuotesAt rc
      let sortedPrices := match h2.arrays rc with
        | some (JsArray.quotes l) => l
        | _ => []
      let trimCount := (Int.floor ((sortedPrices.length : ℚ) * trimPercentage)).toNat
      let trimmedPrices :=
        (sortedPrices.take (sortedPrices.length - trimCount)).drop trimCount
      (calculateWeightedAverage trimmedPrices weights, h2)
  | _ => (.error .emptyInput, h)

def c1Prices : List NormalizedPrice :=
  [{ symbol := "GOOGL", price := 100, timestamp := 0, source := "S1" },
   { symbol := "GOOGL", price := 110, timestamp := 0, source := "S2" }]

def c1Weights : List (String × ℚ) := [("S1", 3), ("S2", 1)]

def c4Prices : List NormalizedPrice :=
  [{ symbol := "AAPL", price := 100, timestamp := 0, source := "S1" },
   { symbol := "AAPL", price := 200, timestamp := 0, source := "S2" },
   { symbol := "AAPL", price := 300, timestamp := 0, source := "S3" }]

def c10Prices : List NormalizedPrice :=
  [{ symbol := "AAPL", price := 100, timestamp := 0, source := "S1", weight := some (-1) },
   { symbol := "AAPL", price := 110, timestamp := 0, source := "S2", weight := some 3 }]

def c7Prices : List NormalizedPrice :=
  [{ symbol := "AAPL", price := 4, timestamp := 0, source := "S1" },
   { symbol := "AAPL", price := 6, timestamp := 0, source := "S2" }]

def c9Prices : List NormalizedPrice :=
  [{ symbol := "AAPL", price := 3, timestamp := 0, source := "S1" },
   { symbol := "AAPL", price := 1, timestamp := 0, source := "S2" },
   { symbol := "AAPL", price := 2, timestamp := 0, source := "S3" }]

/-- A heap holding only the caller's array. -/
def c9Heap : JsHeap :=
  { arrays := fun i => if i = 0 then some (JsArray.quotes c9Prices) else none,
    next := 1 }

def c3Options : AggregationOptions := {}

def c3Prices : List NormalizedPrice :=
  [{ symbol := "AAPL", price := 100, timestamp := 900, source := "S1" },
   { symbol := "AAPL", price := 110, timestamp := 950, source := "S2" },
   { symbol := "AAPL", price := 90, timestamp := 990, source := "S3" }]

def c6NegRaw : RawPrice :=
  { symbol := "TEST", price := 100, timestamp := RawTimestamp.int (-5),
    source := "alphavantage" }

def c6ZeroRaw : RawPrice :=
  { symbol := "TEST", price := 100, timestamp := RawTimestamp.int 0,
    source := "alphavantage" }

def c5Raw : RawPrice :=
  { symbol := "AAPL.US.US", price := 100, timestamp := RawTimestamp.int 1000,
    source := "alphavantage" }

def c5FirstPass : CanonicalQuote :=
  { symbol := "AAPL.US", price := 100, isoTimestamp := 1000,
    originalTimestamp := 1000, source := "alpha_vantage" }

def c5SecondRaw : RawPrice :=
  { symbol := "AAPL.US", price := 100, timestamp := RawTimestamp.int 1000,
    source := "alpha_vantage" }

def c5SecondPass : CanonicalQuote :=
  { symbol := "AAPL", price := 100, isoTimestamp := 1000,
    originalTimestamp := 1000, source := "alpha_vantage" }

def c5IdemRaw : RawPrice :=
  { symbol := "AAPL", price := 100, timestamp := RawTimestamp.int 1000,
    source := "alphavantage" }

def c5IdemQuote : CanonicalQuote :=
  { symbol := "AAPL", price := 100, isoTimestamp := 1000,
    originalTimestamp := 1000, source := "alpha_vantage" }

def c5YahooRaw : RawPrice :=
  { symbol := "^DJI", price := 100, timestamp := RawTimestamp.int 1000,
    source := "yahoo" }

def c5YahooQuote : CanonicalQuote :=
  { symbol := "DJI", price := 100, isoTimestamp := 1000,
    originalTimestamp := 1000, source := "yahoo_finance" }

/-- Claim C1: for every non-empty quote list and weights map, the weighted-mean
aggregator takes each quote's effective weight as the explicit per-quote weight
if present, else the map lookup by source, else 1, returns
`Σ(price·weight)/Σ(weight)`, and fails with the zero-total-weight error exactly
when `Σ(weight)` is zero. -/
theorem c1_weighted_mean_spec (prices : List NormalizedPrice)
    (weights : List (String × ℚ)) (hne : prices ≠ []) :
    (∀ (p : NormalizedPrice) (w : ℚ), p.weight = some w →
        effectiveWeight weights p = w)
    ∧ (∀ (p : NormalizedPrice) (w : ℚ), p.weight = none →
        lookupWeight weights p.source = some w → effectiveWeight weights p = w)
    ∧ (∀ p : NormalizedPrice, p.weight = none →
        lookupWeight weights p.source = none → effectiveWeight weights p = 1)
    ∧ (weightedAverageAggregate prices weights = Except.error AggError.zeroTotalWeight
        ↔ (prices.map (fun p => effectiveWeight weights p)).sum = 0)
    ∧ ((prices.map (fun p => effectiveWeight weights p)).sum ≠ 0 →
        weightedAverageAggregate prices weights
          = Except.ok ((prices.map (fun p => p.price * effectiveWeight weights p)).sum
              / (prices.map (fun p => effectiveWeight weights p)).sum)) := by
  refine ⟨fun p w hw => by simp [effectiveWeight, hw],
          fun p w hw hl => by simp [effectiveWeight, hw, hl],
          fun p hw hl => by simp [effectiveWeight, hw, hl], ?_, ?_⟩
  · unfold weightedAverageAggregate totalWeight
    rw [if_neg hne]
    split <;> simp_all
  · intro h
    unfold weightedAverageAggregate totalWeight weightedSum
    rw [if_neg hne, if_neg h]

/-- Witness for C1 at a concrete input (the `102.5` scenario of the spec). -/
theorem c1_witness :
    weightedAverageAggregate c1Prices c1Weights
      = Except.ok ((c1Prices.map (fun p => p.price * effectiveWeight c1Weights p)).sum
          / (c1Prices.map (fun p => effectiveWeight c1Weights p)).sum) :=
  (c1_weighted_mean_spec c1Prices c1Weights (by decide)).2.2.2.2
    (by simp [c1Prices, c1Weights, effectiveWeight, lookupWeight, List.find?]
        norm_num)

/-- Claim C2: the confidence emitted for a successful aggregation over `n`
sources with spread percentage `s` and standard deviation `d` is
`clamp(min(40, 10 + 3·n) + max(0, 30 − 3·s) + max(0, 30 − 0.3·d), 0, 100)`,
deterministic and pure in `(n, s, d)`. -/
theorem c2_confidence_formula (stdDev spread : ℚ) (sourceCount : ℕ) :
    calculateConfidence stdDev spread sourceCount
      = confidenceSpecFormula sourceCount spread stdDev := by
  simp [calculateConfidence, confidenceSpecFormula, mul_comm]

/-- Claim C4: the trimmed-mean aggregator with trim fraction 0 agrees with the
weighted-mean aggregator on every non-empty input: below three elements via
the fallback, otherwise because `⌊n·0⌋ = 0` elements are dropped and the
weighted sums are invariant under the sorting permutation. -/
theorem c4_trimmed_zero_eq_weighted (prices : List NormalizedPrice)
    (weights : List (String × ℚ)) (hne : prices ≠ []) :
    trimmedMeanAggregate 0 prices weights
      = weightedAverageAggregate prices weights := by
  have hperm : List.Perm (sortByPrice prices) prices := List.perm_insertionSort _ _
  have htw : totalWeight weights (sortByPrice prices) = totalWeight weights prices :=
    (hperm.map _).sum_eq
  have hws : weightedSum weights (sortByPrice prices) = weightedSum weights prices :=
    (hperm.map _).sum_eq
  unfold trimmedMeanAggregate weightedAverageAggregate
  simp only [if_neg hne]
  by_cases h3 : prices.length < 3
  · rw [if_pos h3]
    unfold calculateWeightedAverage
    rfl
  · rw [if_neg h3]
    simp only [mul_zero, Int.floor_zero, Int.toNat_zero, Nat.sub_zero,
      List.take_length, List.drop_zero]
    unfold calculateWeightedAverage
    rw [htw, hws]

/-- Witness for C4 at a concrete three-element input. -/
theorem c4_witness :
    trimmedMeanAggregate 0 c4Prices c1Weights
      = weightedAverageAggregate c4Prices c1Weights :=
  c4_trimmed_zero_eq_weighted c4Prices c1Weights (by decide)

/-- Claim C10: on every non-empty quote list the weighted-mean aggregator
errors exactly when the total effective weight is zero; no non-negativity
check exists, so any weights (negative ones included) with nonzero sum
produce a result. -/
theorem c10_error_iff_zero_total (prices : List NormalizedPrice)
    (weights : List (String × ℚ)) (hne : prices ≠ []) :
    ((∃ e, weightedAverageAggregate prices weights = Except.error e)
      ↔ totalWeight weights prices = 0)
    ∧ (totalWeight weights prices ≠ 0 →
        weightedAverageAggregate prices weights
          = Except.ok (weightedSum weights prices / totalWeight weights prices)) := by
  unfold weightedAverageAggregate
  rw [if_neg hne]
  constructor
  · split
    · simp_all
    · simp_all
  · intro h
    rw [if_neg h]

/-- Witness for C10: a mix of a negative and a positive per-quote weight with
nonzero sum is accepted and produces a result. -/
theorem c10_witness :
    totalWeight [] c10Prices ≠ 0
    ∧ weightedAverageAggregate c10Prices []
        = Except.ok (weightedSum [] c10Prices / totalWeight [] c10Prices) :=
  ⟨by simp [c10Prices, totalWeight, effectiveWeight, lookupWeight]
      norm_num,
   (c10_error_iff_zero_total c10Prices [] (by decide)).2
     (by simp [c10Prices, totalWeight, effectiveWeight, lookupWeight]
         norm_num)⟩

/-- Claim C7: over any non-empty survivor set (whose prices all passed the
engine's strict-positivity validation), the emitted spread metric is
`100·(max − min)/mean`, and the mean is strictly positive, so the division is
never by zero (and the `mean = 0` case, for which the spec prescribes spread
`0`, cannot arise for survivors). -/
theorem c7_spread_formula (prices : List NormalizedPrice) (hne : prices ≠ [])
    (hpos : ∀ p ∈ prices, 0 < p.price) :
    0 < (prices.map (fun p => p.price)).sum / ((prices.map (fun p => p.price)).length : ℚ)
    ∧ (calculateMetrics prices).spread
        = 100 * ((((prices.map (fun p => p.price)).max?).getD 0)
              - (((prices.map (fun p => p.price)).min?).getD 0))
          / ((prices.map (fun p => p.price)).sum
              / ((prices.map (fun p => p.price)).length : ℚ)) := by
  have hsum : 0 < (prices.map (fun p => p.price)).sum := by
    apply List.sum_pos
    · intro x hx
      obtain ⟨p, hp, rfl⟩ := List.mem_map.mp hx
      exact hpos p hp
    · simpa using hne
  have hlen : 0 < ((prices.map (fun p => p.price)).length : ℚ) := by
    have : prices.length ≠ 0 := fun h => hne (List.eq_nil_of_length_eq_zero h)
    simp only [List.length_map]
    exact_mod_cast Nat.pos_of_ne_zero this
  refine ⟨div_pos hsum hlen, ?_⟩
  unfold calculateMetrics
  ring

/-- Witness for C7 at a concrete two-element survivor set. -/
theorem c7_witness :
    0 < (c7Prices.map (fun p => p.price)).sum / ((c7Prices.map (fun p => p.price)).length : ℚ)
    ∧ (calculateMetrics c7Prices).spread
        = 100 * ((((c7Prices.map (fun p => p.price)).max?).getD 0)
              - (((c7Prices.map (fun p => p.price)).min?).getD 0))
          / ((c7Prices.map (fun p => p.price)).sum
              / ((c7Prices.map (fun p => p.price)).length : ℚ)) :=
  c7_spread_formula c7Prices (by decide)
    (by intro p hp; fin_cases hp <;> norm_num [c7Prices])

/-- Claim C9: the median and trimmed-mean aggregators leave the caller's quote
array unchanged — the in-place JS sorts act on freshly allocated arrays (the
mapped price list for the median, the spread copy for the trimmed mean), never
on the array the caller passed. -/
theorem c9_aggregators_preserve_caller_array (h : JsHeap) (r : ℕ)
    (prices : List NormalizedPrice) (weights : List (String × ℚ)) (t : ℚ)
    (hwf : h.WF) (hr : h.arrays r = some (JsArray.quotes prices)) :
    ((medianAggregateOnHeap h r).2).arrays r = some (JsArray.quotes prices)
    ∧ ((trimmedMeanAggregateOnHeap t h r weights).2).arrays r
        = some (JsArray.quotes prices) := by
  have hrn : r ≠ h.next := by
    intro hEq
    have := hwf r (le_of_eq hEq.symm)
    rw [this] at hr
    exact Option.noConfusion hr
  have halloc : ∀ a : JsArray, ((h.alloc a).1).arrays r = h.arrays r := by
    intro a
    simp [JsHeap.alloc, hrn]
  have hsortN : ∀ (hh : JsHeap) (i : ℕ), r ≠ i →
      (hh.sortNumsAt i).arrays r = hh.arrays r := by
    intro hh i hir
    unfold JsHeap.sortNumsAt
    split <;> simp [JsHeap.writeAt, hir]
  have hsortQ : ∀ (hh : JsHeap) (i : ℕ), r ≠ i →
      (hh.sortQuotesAt i).arrays r = hh.arrays r := by
    intro hh i hir
    unfold JsHeap.sortQuotesAt
    split <;> simp [JsHeap.writeAt, hir]
  constructor
  · unfold medianAggregateOnHeap
    simp only [hr]
    by_cases hp : prices = []
    · rw [if_pos hp]
      exact hr
    · rw [if_neg hp]
      have hgoal :
          ((JsHeap.sortNumsAt (h.alloc (JsArray.nums (prices.map (fun p => p.price)))).1
              (h.alloc (JsArray.nums (prices.map (fun p => p.price)))).2)).arrays r
            = some (JsArray.quotes prices) := by
        rw [hsortN _ _ (by simpa [JsHeap.alloc] using hrn), halloc]
        exact hr
      split <;> exact hgoal
  · unfold trimmedMeanAggregateOnHeap
    simp only [hr]
    by_cases hp : prices = []
    · rw [if_pos hp]
      exact hr
    · rw [if_neg hp]
      by_cases h3 : prices.length < 3
      · rw [if_pos h3]
        exact hr
      · rw [if_neg h3]
        rw [hsortQ _ _ (by simpa [JsHeap.alloc] using hrn), halloc]
        exact hr

/-- Witness for C9 at a concrete heap and quote array. -/
theorem c9_witness :
    ((medianAggregateOnHeap c9Heap 0).2).arrays 0 = some (JsArray.quotes c9Prices)
    ∧ ((trimmedMeanAggregateOnHeap (1/5) c9Heap 0 []).2).arrays 0
        = some (JsArray.quotes c9Prices) :=
  c9_aggregators_preserve_caller_array c9Heap 0 c9Prices [] (1/5)
    (by intro i hi
        simp only [c9Heap] at hi ⊢
        rw [if_neg (by omega)])
    (by rfl)

/-- No aggregator strategy can produce the `InsufficientRecentSources` error:
that error has a single throw site, the engine's post-filter count check. -/
theorem dispatchAggregator_ne_insufficientRecent (method : Method)
    (trimPercentage : ℚ) (prices : List NormalizedPrice)
    (weights : List (String × ℚ)) :
    dispatchAggregator method trimPercentage prices weights
      ≠ Except.error AggError.insufficientRecentSources := by
  cases method <;>
    simp only [dispatchAggregator, weightedAverageAggregate, medianAggregate,
      trimmedMeanAggregate, calculateWeightedAverage] <;>
    (repeat' split) <;> simp

/-- Claim C3: after validation, the engine keeps exactly the quotes whose
timestamp is at least `now − timeWindowMs`, and it fails with
`InsufficientRecentSources` precisely when fewer than `minSources` quotes
survive the window filter. -/
theorem c3_window_filter (now : ℤ) (symbol : String)
    (prices : List NormalizedPrice) (options : AggregationOptions)
    (hval : validateInputs symbol prices options.minSources = Except.ok ()) :
    (∀ p : NormalizedPrice,
        p ∈ prices.filter (fun q => now - options.timeWindowMs ≤ q.timestamp)
          ↔ p ∈ prices ∧ now - options.timeWindowMs ≤ p.timestamp)
    ∧ (aggregateEngine now symbol prices options
          = Except.error AggError.insufficientRecentSources
        ↔ (prices.filter (fun q => now - options.timeWindowMs ≤ q.timestamp)).length
            < options.minSources) := by
  constructor
  · intro p
    simp [List.mem_filter]
  · unfold aggregateEngine
    rw [hval]
    by_cases hlt :
        (prices.filter (fun q => now - options.timeWindowMs ≤ q.timestamp)).length
          < options.minSources
    · rw [if_pos hlt]
      exact iff_of_true rfl hlt
    · rw [if_neg hlt]
      simp only [hlt, iff_false]
      intro hcontra
      rcases hd : dispatchAggregator options.method options.trimPercentage
          (prices.filter (fun q => now - options.timeWindowMs ≤ q.timestamp))
          (prepareWeights
            (prices.filter (fun q => now - options.timeWindowMs ≤ q.timestamp))
            options.customWeights) with e | v
      · rw [hd] at hcontra
        have : e = AggError.insufficientRecentSources := by
          simpa using hcontra
        exact dispatchAggregator_ne_insufficientRecent options.method
          options.trimPercentage _ _ (this ▸ hd)
      · rw [hd] at hcontra
        simp at hcontra

/-- Witness for C3 at a concrete validated call. -/
theorem c3_witness :
    (∀ p : NormalizedPrice,
        p ∈ c3Prices.filter (fun q => 1000 - c3Options.timeWindowMs ≤ q.timestamp)
          ↔ p ∈ c3Prices ∧ 1000 - c3Options.timeWindowMs ≤ p.timestamp)
    ∧ (aggregateEngine 1000 "AAPL" c3Prices c3Options
          = Except.error AggError.insufficientRecentSources
        ↔ (c3Prices.filter (fun q => 1000 - c3Options.timeWindowMs ≤ q.timestamp)).length
            < c3Options.minSources) :=
  c3_window_filter 1000 "AAPL" c3Prices c3Options
    (by decide)

/-- Counterexample to claim C8: starting the scheduler launches the initial
fetch, and the very next interval tick launches a second one before the first
completes — two cycles are in flight, so the started scheduler does not keep
at most one fetch cycle in flight. -/
theorem c8_counterexample :
    (schedulerRun [SchedulerEvent.start, SchedulerEvent.tick]).inFlight = 2
    ∧ ¬ schedulerSingleFlight := by
  have h2 : (schedulerRun [SchedulerEvent.start, SchedulerEvent.tick]).inFlight = 2 := by
    decide
  refine ⟨h2, fun hsf => ?_⟩
  have := hsf [SchedulerEvent.start, SchedulerEvent.tick]
  omega

/-- Claim C8 (amended): the interval callback invokes `executeFetch` with no
overlap guard — while the interval is installed, every tick starts one more
fetch cycle unconditionally (whatever number are already in flight), and the
tick leaves the interval installed; `isRunning` only guards double-start. -/
theorem c8_tick_always_starts_cycle (s : SchedulerState)
    (hs : s.intervalSet = true) :
    (schedulerStep s SchedulerEvent.tick).inFlight = s.inFlight + 1
    ∧ (schedulerStep s SchedulerEvent.tick).intervalSet = true := by
  simp [schedulerStep, hs]

/-- Witness for the amended C8 at a concrete state with one cycle already in
flight. -/
theorem c8_witness :
    (schedulerStep { intervalSet := true, isRunning := true, inFlight := 1 }
        SchedulerEvent.tick).inFlight = 1 + 1
    ∧ (schedulerStep { intervalSet := true, isRunning := true, inFlight := 1 }
        SchedulerEvent.tick).intervalSet = true :=
  c8_tick_always_starts_cycle
    { intervalSet := true, isRunning := true, inFlight := 1 } rfl

/-- Rounding to four decimals keeps non-negative prices non-negative. -/
theorem normalizePrice_nonneg (p : ℚ) (hp : 0 ≤ p) : 0 ≤ normalizePrice p := by
  unfold normalizePrice jsRound
  have hbase : (0 : ℚ) ≤ p * 10000 + 1/2 := by nlinarith
  have hfl : (0 : ℤ) ≤ Int.floor (p * 10000 + 1/2) :=
    Int.le_floor.mpr (by exact_mod_cast hbase)
  have : (0 : ℚ) ≤ ((Int.floor (p * 10000 + 1/2) : ℤ) : ℚ) := by exact_mod_cast hfl
  positivity

/-- Rounding to four decimals is idempotent. -/
theorem normalizePrice_idem (p : ℚ) : normalizePrice (normalizePrice p) = normalizePrice p := by
  unfold normalizePrice jsRound
  have hmul : ((Int.floor (p * 10000 + 1/2) : ℚ) / 10000) * 10000 + 1/2
      = (Int.floor (p * 10000 + 1/2) : ℚ) + 1/2 := by
    field_simp
  rw [hmul]
  have : Int.floor ((Int.floor (p * 10000 + 1/2) : ℚ) + 1/2)
      = Int.floor (p * 10000 + 1/2) + Int.floor ((1 : ℚ)/2) := by
    rw [Int.floor_int_add]
  rw [this]
  norm_num

/-- Counterexample to claim C6: a raw quote with the strictly negative
timestamp `-5` passes `validateRawPrice` (only falsy or non-number timestamps
are rejected) and `normalize` produces a canonical quote from it. -/
theorem c6_counterexample :
    (-5 : ℤ) < 0
    ∧ alphaVantageNormalize c6NegRaw
        = Except.ok { symbol := "TEST", price := 100, isoTimestamp := -5,
                      originalTimestamp := -5, source := "alpha_vantage" } := by
  have hprice : normalizePrice 100 = 100 := by
    unfold normalizePrice jsRound
    norm_num
  refine ⟨by norm_num, ?_⟩
  unfold alphaVantageNormalize normalizeWith
  simp only [show validateRawPrice c6NegRaw = Except.ok () from by decide,
    show c6NegRaw.timestamp = RawTimestamp.int (-5) from rfl,
    show normalizeTimestamp (-5) = Except.ok (-5) from by decide]
  simp only [show c6NegRaw.symbol = "TEST" from rfl,
    show c6NegRaw.price = (100 : ℚ) from rfl,
    show alphaVantageNormalizeSymbol "TEST" = "TEST" from by decide, hprice]

/-- Claim C6 (amended): the canonical record builder rejects raw quotes whose
timestamp field is non-numeric (missing, string, `NaN`) or zero — the falsy
check — but a negative numeric timestamp inside the JS `Date` range passes
validation and `normalize` produces a canonical quote carrying it. -/
theorem c6_timestamp_validation (normSym : String → String)
    (canonicalSource : String) (raw : RawPrice) :
    (timestampFieldOk raw.timestamp = false →
      ∃ e, normalizeWith normSym canonicalSource raw = Except.error e)
    ∧ (∀ t : ℤ, raw.timestamp = RawTimestamp.int t → t ≠ 0 →
        |t| ≤ MAX_JS_DATE_MS → raw.symbol ≠ "" → 0 ≤ raw.price →
        raw.source ≠ "" →
        ∃ q, normalizeWith normSym canonicalSource raw = Except.ok q
          ∧ q.originalTimestamp = t) := by
  constructor
  · intro hbad
    unfold normalizeWith validateRawPrice
    by_cases h1 : raw.symbol = ""
    · rw [if_pos h1]
      exact ⟨_, rfl⟩
    · rw [if_neg h1]
      by_cases h2 : raw.price < 0
      · rw [if_pos h2]
        exact ⟨_, rfl⟩
      · rw [if_neg h2,
          if_pos (show (!timestampFieldOk raw.timestamp) = true by simp [hbad])]
        exact ⟨_, rfl⟩
  · intro t ht hnz hle hsym hpr hsrc
    unfold normalizeWith validateRawPrice
    rw [if_neg hsym, if_neg (not_lt.mpr hpr),
      if_neg (by simp [ht, timestampFieldOk, hnz]), if_neg hsrc]
    simp only [ht]
    unfold normalizeTimestamp
    rw [if_neg (not_lt.mpr hle)]
    exact ⟨_, rfl, rfl⟩

/-- Witness for the amended C6: a zero timestamp is rejected while the
negative timestamp `-5` yields a canonical quote. -/
theorem c6_witness :
    (∃ e, normalizeWith alphaVantageNormalizeSymbol "alpha_vantage" c6ZeroRaw
        = Except.error e)
    ∧ (∃ q, normalizeWith alphaVantageNormalizeSymbol "alpha_vantage" c6NegRaw
          = Except.ok q ∧ q.originalTimestamp = -5) :=
  ⟨(c6_timestamp_validation alphaVantageNormalizeSymbol "alpha_vantage" c6ZeroRaw).1
      (by decide),
   (c6_timestamp_validation alphaVantageNormalizeSymbol "alpha_vantage" c6NegRaw).2
      (-5) rfl (by decide) (by decide) (by decide) (by norm_num [c6NegRaw]) (by decide)⟩

/-- Evaluation of the canonical record builder on a raw record with a numeric
timestamp that passes every validation clause. -/
theorem normalizeWith_eval (normSym : String → String) (cs : String)
    (sym : String) (p : ℚ) (t : ℤ) (src : String)
    (hsym : sym ≠ "") (hp : 0 ≤ p) (ht : t ≠ 0)
    (hle : ¬ MAX_JS_DATE_MS < |t|) (hsrc : src ≠ "") :
    normalizeWith normSym cs
        { symbol := sym, price := p, timestamp := RawTimestamp.int t, source := src }
      = Except.ok { symbol := normSym sym, price := normalizePrice p,
                    isoTimestamp := t, originalTimestamp := t, source := cs } := by
  unfold normalizeWith validateRawPrice normalizeTimestamp
  rw [if_neg hsym, if_neg (not_lt.mpr hp),
    if_neg (show ¬ (!timestampFieldOk (RawTimestamp.int t)) = true by
      simp [timestampFieldOk, ht]),
    if_neg hsrc]
  simp [hle]

/-- Inversion of a successful normalization (any symbol rule and canonical
source): the raw record had a nonzero numeric timestamp inside the `Date`
range, a non-negative price and non-empty symbol and source, and the canonical
quote is the assembled record. -/
theorem normalizeWith_ok_inv (normSym : String → String) (cs : String)
    (raw : RawPrice) (q : CanonicalQuote)
    (hq : normalizeWith normSym cs raw = Except.ok q) :
    ∃ t : ℤ, raw.timestamp = RawTimestamp.int t
      ∧ t ≠ 0 ∧ ¬ MAX_JS_DATE_MS < |t|
      ∧ raw.symbol ≠ "" ∧ 0 ≤ raw.price ∧ raw.source ≠ ""
      ∧ q = { symbol := normSym raw.symbol,
              price := normalizePrice raw.price,
              isoTimestamp := t, originalTimestamp := t,
              source := cs } := by
  unfold normalizeWith at hq
  rcases hval : validateRawPrice raw with e | u
  · rw [hval] at hq
    exact Except.noConfusion hq
  · cases u
    simp only [hval] at hq
    rcases hts : raw.timestamp with t | _ | _ <;> simp only [hts] at hq
    case nan => exact Except.noConfusion hq
    case nonNumber => exact Except.noConfusion hq
    case int =>
      rcases hnt : normalizeTimestamp t with e | iso <;> simp only [hnt] at hq
      · exact Except.noConfusion hq
      · have hrec := (Except.ok.inj hq).symm
        have hninv : ¬ MAX_JS_DATE_MS < |t| ∧ iso = t := by
          unfold normalizeTimestamp at hnt
          split at hnt
          · exact Except.noConfusion hnt
          · exact ⟨by assumption, (Except.ok.inj hnt).symm⟩
        have hfacts : raw.symbol ≠ "" ∧ ¬ raw.price < 0
            ∧ timestampFieldOk raw.timestamp = true ∧ raw.source ≠ "" := by
          unfold validateRawPrice at hval
          split at hval
          next h1 => exact Except.noConfusion hval
          next h1 =>
            split at hval
            next h2 => exact Except.noConfusion hval
            next h2 =>
              split at hval
              next h3 => exact Except.noConfusion hval
              next h3 =>
                split at hval
                next h4 => exact Except.noConfusion hval
                next h4 => exact ⟨h1, h2, by simpa using h3, h4⟩
        obtain ⟨h1, h2, h3, h4⟩ := hfacts
        refine ⟨t, rfl, ?_, hninv.1, h1, not_lt.mp h2, h4, ?_⟩
        · rw [hts] at h3
          simpa [timestampFieldOk] using h3
        · rw [hrec, hninv.2]

/-- Counterexample to claim C5: the suffix rule strips only the one trailing
exchange suffix, so the valid raw symbol `AAPL.US.US` normalizes to `AAPL.US`,
and feeding that canonical quote back through the same normalizer strips again,
yielding the different symbol `AAPL` — normalization is not idempotent. -/
theorem c5_counterexample :
    alphaVantageNormalize c5Raw = Except.ok c5FirstPass
    ∧ alphaVantageNormalize c5SecondRaw = Except.ok c5SecondPass
    ∧ c5SecondPass.symbol ≠ c5FirstPass.symbol := by
  have hprice : normalizePrice 100 = 100 := by
    unfold normalizePrice jsRound
    norm_num
  refine ⟨?_, ?_, by decide⟩
  · rw [show alphaVantageNormalize c5Raw
        = normalizeWith alphaVantageNormalizeSymbol "alpha_vantage"
            { symbol := "AAPL.US.US", price := 100,
              timestamp := RawTimestamp.int 1000, source := "alphavantage" } from rfl,
      normalizeWith_eval _ _ _ _ _ _ (by decide) (by norm_num) (by decide)
        (by decide) (by decide)]
    rw [show alphaVantageNormalizeSymbol "AAPL.US.US" = "AAPL.US" from by decide,
      hprice]
    rfl
  · rw [show alphaVantageNormalize c5SecondRaw
        = normalizeWith alphaVantageNormalizeSymbol "alpha_vantage"
            { symbol := "AAPL.US", price := 100,
              timestamp := RawTimestamp.int 1000, source := "alpha_vantage" } from rfl,
      normalizeWith_eval _ _ _ _ _ _ (by decide) (by norm_num) (by decide)
        (by decide) (by decide)]
    rw [show alphaVantageNormalizeSymbol "AAPL.US" = "AAPL" from by decide, hprice]
    rfl

/-- Claim C5 (amended): for every normalizer, re-normalizing the canonical
output reproduces it exactly provided the canonical symbol is a fixed point of
that normalizer's symbol rewriting rule and non-empty (to pass validation);
the price rounding and timestamp conversion are idempotent unconditionally.  For Alpha Vantage the fixed-point proviso means a clean
symbol with no further strippable exchange suffix (the counterexample
`AAPL.US.US` violates it); for Yahoo Finance it additionally forbids a leading
`^`, since each pass strips one more marker (valid raw `^^DJI` yields
canonical `^DJI`, which re-normalizes to `DJI`). -/
theorem c5_normalize_idem_amended (normSym : String → String) (cs : String)
    (raw : RawPrice) (q : CanonicalQuote)
    (hq : normalizeWith normSym cs raw = Except.ok q)
    (hfix : normSym q.symbol = q.symbol)
    (hne : q.symbol ≠ "") (hcs : cs ≠ "") :
    normalizeWith normSym cs
        { symbol := q.symbol, price := q.price,
          timestamp := RawTimestamp.int q.originalTimestamp, source := q.source }
      = Except.ok q := by
  obtain ⟨t, hts, ht0, hle, h1, h2, h4, hrec⟩ := normalizeWith_ok_inv normSym cs raw q hq
  have hprq : q.price = normalizePrice raw.price := by rw [hrec]
  have horigq : q.originalTimestamp = t := by rw [hrec]
  have hsrcq : q.source = cs := by rw [hrec]
  have hpos : 0 ≤ q.price := hprq ▸ normalizePrice_nonneg raw.price h2
  rw [horigq, hsrcq]
  rw [normalizeWith_eval _ _ _ _ _ _ hne hpos ht0 hle hcs]
  rw [hfix]
  rw [show normalizePrice q.price = q.price from by rw [hprq, normalizePrice_idem]]
  have hfinal : CanonicalQuote.mk q.symbol q.price t t cs = q := by
    rw [hrec]
  rw [hfinal]

/-- Witness for the amended C5: a suffix-free Alpha Vantage quote and a
caret-free Yahoo Finance quote both re-normalize to themselves. -/
theorem c5_witness :
    alphaVantageNormalize
        { symbol := c5IdemQuote.symbol, price := c5IdemQuote.price,
          timestamp := RawTimestamp.int c5IdemQuote.originalTimestamp,
          source := c5IdemQuote.source }
      = Except.ok c5IdemQuote
    ∧ yahooFinanceNormalize
        { symbol := c5YahooQuote.symbol, price := c5YahooQuote.price,
          timestamp := RawTimestamp.int c5YahooQuote.originalTimestamp,
          source := c5YahooQuote.source }
      = Except.ok c5YahooQuote :=
  ⟨c5_normalize_idem_amended alphaVantageNormalizeSymbol "alpha_vantage"
    c5IdemRaw c5IdemQuote
    (by
      have hprice : normalizePrice 100 = 100 := by
        unfold normalizePrice jsRound
        norm_num
      rw [show normalizeWith alphaVantageNormalizeSymbol "alpha_vantage" c5IdemRaw
          = normalizeWith alphaVantageNormalizeSymbol "alpha_vantage"
              { symbol := "AAPL", price := 100,
                timestamp := RawTimestamp.int 1000, source := "alphavantage" } from rfl,
        normalizeWith_eval _ _ _ _ _ _ (by decide) (by norm_num) (by decide)
          (by decide) (by decide)]
      rw [show alphaVantageNormalizeSymbol "AAPL" = "AAPL" from by decide, hprice]
      rfl)
    (by decide) (by decide) (by decide),
   c5_normalize_idem_amended yahooFinanceNormalizeSymbol "yahoo_finance"
    c5YahooRaw c5YahooQuote
    (by
      have hprice : normalizePrice 100 = 100 := by
        unfold normalizePrice jsRound
        norm_num
      rw [show normalizeWith yahooFinanceNormalizeSymbol "yahoo_finance" c5YahooRaw
          = normalizeWith yahooFinanceNormalizeSymbol "yahoo_finance"
              { symbol := "^DJI", price := 100,
                timestamp := RawTimestamp.int 1000, source := "yahoo" } from rfl,
        normalizeWith_eval _ _ _ _ _ _ (by decide) (by norm_num) (by decide)
          (by decide) (by decide)]
      rw [show yahooFinanceNormalizeSymbol "^DJI" = "DJI" from by decide, hprice]
      rfl)
    (by decide) (by decide) (by decide)⟩
